import Mathlib

/-!
Verification of the CS2 market-export analyzer (`src/analyze.py`) through a
shallow embedding in Lean.  The pipeline is: load the CSV, clean the header
names, filter to the Counter-Strike 2 rows, normalize the `Type` column,
coerce the price column, drop unparseable rows, parse the `Acted On` dates,
fail when no purchase/sale transactions remain, and finally compute and
serialize the summary, bar, line and pie artifacts.  Cells of the loaded
table are modelled post-`read_csv`: a missing cell (pandas `NaN`) is `none`,
the numeric coercion performed by `pd.to_numeric(..., errors="coerce")` is
represented by the rationally valued `priceCell` field.
-/

namespace CS2Market

/-! ### Python string primitives used by the script -/

/-- The whitespace characters removed by Python's `str.strip()`
(the ASCII subset; the script's headers and type labels are ASCII). -/
def pyWS (c : Char) : Bool :=
  (c == ' ') || (c == '\t') || (c == '\n') || (c == '\r') || (c == '\x0b') || (c == '\x0c')

/-- Remove leading and trailing characters satisfying `p`, as Python's
`str.strip(chars)` does, on the character list. -/
def pyStripL (p : Char → Bool) (l : List Char) : List Char :=
  ((l.dropWhile p).reverse.dropWhile p).reverse

/-- Python `str.strip(chars)` on strings. -/
def pyStrip (p : Char → Bool) (s : String) : String :=
  String.mk (pyStripL p s.toList)

/-- ASCII lower-casing of one character, as Python `str.lower()` acts on the
ASCII labels the script compares against. -/
def lowerChar (c : Char) : Char :=
  if 'A' ≤ c ∧ c ≤ 'Z' then Char.ofNat (c.toNat + 32) else c

/-- ASCII `str.lower()`. -/
def lowerAscii (s : String) : String :=
  String.mk (s.toList.map lowerChar)

/-- Whether `n` occurs at the front of `h` (helper for substring search). -/
def hasPrefixL : List Char → List Char → Bool
  | [], _ => true
  | _ :: _, [] => false
  | a :: as, b :: bs => a == b && hasPrefixL as bs

/-- Whether `n` occurs as a contiguous run inside `h`. -/
def hasSubstrL (n : List Char) : List Char → Bool
  | [] => hasPrefixL n []
  | b :: bs => hasPrefixL n (b :: bs) || hasSubstrL n bs

/-- Python's `needle in hay` substring test on strings. -/
def strHasSubstr (needle hay : String) : Bool :=
  hasSubstrL needle.toList hay.toList

/-! ### Header cleaning (line 15 of `analyze.py`)

`df.columns = [col.strip().strip('"').strip("'") for col in df.columns]` -/

/-- `col.strip().strip('"').strip("'")`: trim whitespace, then surrounding
double quotes, then surrounding single quotes. -/
def cleanHeader (s : String) : String :=
  pyStrip (fun c => c == '\'') (pyStrip (fun c => c == '"') (pyStrip pyWS s))

/-- A header whose first and last characters are neither whitespace nor a
quote character (or which is empty): the "already-clean" headers. -/
def isCleanHeader (s : String) : Bool :=
  match s.toList with
  | [] => true
  | c :: cs =>
      let bad : Char → Bool := fun x => pyWS x || x == '"' || x == '\''
      !(bad c) && !(bad ((c :: cs).getLast (by simp)))

/-! ### Type normalization (lines 35–43 of `analyze.py`) -/

/-- `normalize_type` from the script: `NaN → None`; otherwise strip and
lower-case the value, map the purchase synonyms to `"purchase"`, the sale
synonyms to `"sale"`, and return the stripped lower-cased value otherwise. -/
def normalize_type (typeVal : Option String) : Option String :=
  match typeVal with
  | none => none
  | some v =>
      let t := lowerAscii (pyStrip pyWS v)
      if t = "purchase" ∨ t = "buy" ∨ t = "bought" then some "purchase"
      else if t = "sale" ∨ t = "sell" ∨ t = "sold" then some "sale"
      else some t

/-! ### Category classification (lines 107–120 of `analyze.py`) -/

/-- `categorize_item` from the script: `NaN → "Unknown"`, otherwise ordered
substring tests `Capsule`, `Case`, `Charm`, `Sticker`, defaulting to
`"Weapons"`. -/
def categorize_item (marketName : Option String) : String :=
  match marketName with
  | none => "Unknown"
  | some s =>
      if strHasSubstr "Capsule" s then "Capsules"
      else if strHasSubstr "Case" s then "Cases"
      else if strHasSubstr "Charm" s then "Charms"
      else if strHasSubstr "Sticker" s then "Stickers"
      else "Weapons"

/-! ### Date parsing (line 54 of `analyze.py`)

`pd.to_datetime(cs2_df["Acted On"], format="%d %b", errors="coerce")`:
a day number and an English month abbreviation (matched case-insensitively),
completed with the default year 1900; values that do not fit the pattern
become `NaT` and the row is dropped. -/

/-- Split a character list on single spaces (one separator per split). -/
def splitSpaces : List Char → List (List Char)
  | [] => [[]]
  | c :: cs =>
      let rest := splitSpaces cs
      if c == ' ' then [] :: rest
      else match rest with
        | [] => [[c]]
        | t :: ts => (c :: t) :: ts

/-- Decimal digits to a number; `none` when empty or a non-digit occurs. -/
def digitsToNat : List Char → Option Nat
  | [] => none
  | l => l.foldl (fun acc c =>
      match acc with
      | none => none
      | some n => if c.isDigit then some (n * 10 + (c.toNat - '0'.toNat)) else none)
      (some 0)

/-- The English month abbreviations recognized by `%b`. -/
def monthAbbrevs : List String :=
  ["Jan", "Feb", "Mar", "Apr", "May", "Jun", "Jul", "Aug", "Sep", "Oct", "Nov", "Dec"]

/-- 1-based month number of a `%b` abbreviation, case-insensitively. -/
def monthIndex (s : String) : Option Nat :=
  (monthAbbrevs.findIdx? (fun m => lowerAscii m == lowerAscii s)).map (· + 1)

/-- Day count of each month in the default `strptime` year 1900 (not a leap
year, so February has 28 days). -/
def daysInMonth1900 (m : Nat) : Nat :=
  if m = 2 then 28 else if m = 4 ∨ m = 6 ∨ m = 9 ∨ m = 11 then 30 else 31

/-- Parse an `Acted On` cell with format `"%d %b"`; the result is
`(day, month)`.  Unparseable values yield `none` (pandas `NaT`). -/
def parseDayMonth (s : String) : Option (Nat × Nat) :=
  match splitSpaces (pyStrip pyWS s).toList with
  | [dcs, mcs] =>
      match digitsToNat dcs, monthIndex (String.mk mcs) with
      | some d, some m =>
          if dcs.length ≤ 2 ∧ 1 ≤ d ∧ d ≤ daysInMonth1900 m then some (d, m) else none
      | _, _ => none
  | _ => none

/-! ### The data model -/

/-- One row of the loaded CSV, restricted to the columns the script uses.
A `none` field is a missing cell (pandas `NaN`); `priceCell` carries the
result of `pd.to_numeric(..., errors="coerce")` on the price column, `none`
when the cell is missing or fails numeric coercion. -/
structure RawRow where
  gameName : Option String
  actedOn : Option String
  typeVal : Option String
  marketName : Option String
  priceCell : Option ℚ
  deriving DecidableEq

/-- A fully cleaned row of `cs2_df` after the game filter, type
normalization, numeric coercion, NaN dropping and date parsing.
`actedOn` is the parsed `(day, month)` pair. -/
structure Row where
  actedOn : Nat × Nat
  typeVal : String
  marketName : String
  price : ℚ
  deriving DecidableEq

/-- The fate of one raw row under lines 31–56 of the script: dropped unless
its `Game Name` is exactly `"Counter-Strike 2"`, its normalized `Type`, its
coerced price, its `Market Name` and its `Acted On` cell are all non-null,
and the date parses; the retained row carries the coerced price unchanged. -/
def cleanRow (raw : RawRow) : Option Row :=
  if raw.gameName = some "Counter-Strike 2" then
    match normalize_type raw.typeVal, raw.priceCell, raw.marketName, raw.actedOn with
    | some t, some p, some n, some dstr =>
        match parseDayMonth dstr with
        | some dm => some { actedOn := dm, typeVal := t, marketName := n, price := p }
        | none => none
    | _, _, _, _ => none
  else none

/-- Lines 31–56 of the script: keep the rows whose `Game Name` is exactly
`"Counter-Strike 2"`, normalize `Type`, and drop every row with a missing
price/`Acted On`/`Type`/`Market Name` cell or an unparseable date. -/
def filterRows (rs : List RawRow) : List Row :=
  rs.filterMap cleanRow

/-! ### Rounding

Python's `round(x, 2)` rounds half to even; all arithmetic of the script is
modelled exactly over `ℚ`. -/

/-- Round half to even to the nearest integer. -/
def roundHalfEven (q : ℚ) : ℤ :=
  if q - ⌊q⌋ < 1 / 2 then ⌊q⌋
  else if (1 : ℚ) / 2 < q - ⌊q⌋ then ⌊q⌋ + 1
  else if ⌊q⌋ % 2 = 0 then ⌊q⌋ else ⌊q⌋ + 1

/-- Python `round(x, 2)`. -/
def round2Q (q : ℚ) : ℚ :=
  (roundHalfEven (100 * q) : ℚ) / 100

/-! ### Aggregation (lines 64–100 of `analyze.py`) -/

/-- The purchase-typed rows (line 64). -/
def purchases (fr : List Row) : List Row :=
  fr.filter (fun r => r.typeVal == "purchase")

/-- The sale-typed rows (line 65). -/
def sales (fr : List Row) : List Row :=
  fr.filter (fun r => r.typeVal == "sale")

/-- Sum of the price column over a list of rows. -/
def sumPrices (l : List Row) : ℚ :=
  (l.map Row.price).sum

/-- `total_spent = purchases[price_col].sum() / 100` (line 66). -/
def total_spent (fr : List Row) : ℚ :=
  sumPrices (purchases fr) / 100

/-- `total_earned = sales[price_col].sum() / 100` (line 67). -/
def total_earned (fr : List Row) : ℚ :=
  sumPrices (sales fr) / 100

/-- `net_flow = total_earned - total_spent` (line 68). -/
def net_flow (fr : List Row) : ℚ :=
  total_earned fr - total_spent fr

/-- First row of maximal price (`cs2_df[price_col].idxmax()` returns the
label of the first occurrence of the maximum). -/
def argmaxFirst : List Row → Option Row
  | [] => none
  | r :: rs =>
      match argmaxFirst rs with
      | none => some r
      | some m => if r.price < m.price then some m else some r

/-- The serialized `highest_transaction` object (lines 72 and 94–98): the
first maximal-price row, or the `.get` defaults `("None", 0, "")` when the
frame is empty. -/
structure HighestRec where
  market_name : String
  price_eur : ℚ
  type_val : String
  deriving DecidableEq

/-- Lines 72 and 94–98 of the script. -/
def highest_transaction (fr : List Row) : HighestRec :=
  match argmaxFirst fr with
  | some r =>
      { market_name := r.marketName
        price_eur := round2Q (r.price / 100)
        type_val := r.typeVal }
  | none =>
      { market_name := "None", price_eur := round2Q (0 / 100), type_val := "" }

/-- First element of maximal multiplicity (`value_counts().idxmax()`);
ties among equal counts are broken towards the earlier element (pandas
leaves the tie order unspecified; no claim depends on it). -/
def argmaxCountFirst (l : List String) : Option String :=
  l.dedup.foldl (fun best n =>
      match best with
      | none => some n
      | some b => if l.count b < l.count n then some n else some b)
    none

/-- `most_purchased_item` (line 71): the most frequent market name among
purchase rows, `"None"` when there are none. -/
def most_purchased_item (fr : List Row) : String :=
  match argmaxCountFirst ((purchases fr).map Row.marketName) with
  | some n => n
  | none => "None"

/-- One record of the serialized `item_details` list (lines 75–84):
`groupby("Market Name")` with transaction count, summed price divided by
100 (`total_eur`), and the per-type occurrence counts (`value_counts`). -/
structure ItemDetail where
  market_name : String
  transaction_count : Nat
  total_eur : ℚ
  type_breakdown : List (String × Nat)
  deriving DecidableEq

/-- The rows of group `n` of `groupby("Market Name")`. -/
def itemGroup (fr : List Row) (n : String) : List Row :=
  fr.filter (fun r => r.marketName == n)

/-- `value_counts().to_dict()` of the `Type` column of a group. -/
def typeCounts (g : List Row) : List (String × Nat) :=
  (g.map Row.typeVal).dedup.map fun t => (t, (g.map Row.typeVal).count t)

/-- Lines 75–84: one record per distinct market name.  (pandas `groupby`
sorts the group keys; the enumeration order is immaterial to every claim,
so groups are listed in `dedup` order.) -/
def item_details (fr : List Row) : List ItemDetail :=
  (fr.map Row.marketName).dedup.map fun n =>
    { market_name := n
      transaction_count := (itemGroup fr n).length
      total_eur := sumPrices (itemGroup fr n) / 100
      type_breakdown := typeCounts (itemGroup fr n) }

/-- The serialized `summary` object (lines 87–100). -/
structure Summary where
  total_spent : ℚ
  total_earned : ℚ
  net_flow : ℚ
  purchase_count : Nat
  sale_count : Nat
  most_purchased_item : String
  highest_transaction : HighestRec
  item_details : List ItemDetail
  deriving DecidableEq

/-- Lines 87–100: the totals are rounded with `round(x, 2)` exactly here,
the accumulated sums themselves are unrounded. -/
def buildSummary (fr : List Row) : Summary :=
  { total_spent := round2Q (total_spent fr)
    total_earned := round2Q (total_earned fr)
    net_flow := round2Q (net_flow fr)
    purchase_count := (purchases fr).length
    sale_count := (sales fr).length
    most_purchased_item := most_purchased_item fr
    highest_transaction := highest_transaction fr
    item_details := item_details fr }

/-! ### Bar data (lines 122–126 of `analyze.py`) -/

/-- The category of a row, line 122: `categorize_item` applied to the
(always present) market name. -/
def rowCategory (r : Row) : String :=
  categorize_item (some r.marketName)

/-- Sum of the prices of the rows of one `(Category, Type)` cell of the
`groupby(["Category", "Type"])` table; `0` for an absent combination
(`unstack(fill_value=0)` / `fillna(0)`). -/
def catTypeSum (fr : List Row) (c t : String) : ℚ :=
  sumPrices (fr.filter (fun r => rowCategory r == c && r.typeVal == t))

/-- One record of `bar_data.json`: category with summed purchase prices
(`spent`) and sale prices (`earned`) in currency units. -/
structure BarRec where
  category : String
  spent : ℚ
  earned : ℚ
  deriving DecidableEq

/-- The uncaught exceptions / fatal exits the modelled stages can raise. -/
inductive Fatal where
  /-- Lines 59–61: no row with normalized type `purchase` or `sale`. -/
  | noValidTransactions
  /-- Line 124: `melt(..., value_vars=["purchase", "sale"])` raises a
  `KeyError` when the unstacked table lacks one of these two columns,
  i.e. when one of the two types occurs in no row at all. -/
  | meltKeyError
  deriving DecidableEq

/-- Lines 122–126.  `groupby(["Category", "Type"]).sum().unstack(fill_value=0)`
produces one column per occurring `Type` value; `melt` selects the columns
`purchase` and `sale` and raises a `KeyError` if either is absent; the
`pivot`/`fillna(0)`/`rename` round trip yields one record per occurring
category with the two sums (0 for an empty cell) divided by 100. -/
def bar_data (fr : List Row) : Except Fatal (List BarRec) :=
  let typeCols := (fr.map Row.typeVal).dedup
  if "purchase" ∈ typeCols ∧ "sale" ∈ typeCols then
    .ok <| (fr.map rowCategory).dedup.map fun c =>
      { category := c
        spent := catTypeSum fr c "purchase" / 100
        earned := catTypeSum fr c "sale" / 100 }
  else .error .meltKeyError

/-! ### Line data (lines 132–141 of `analyze.py`) -/

/-- Two-digit zero-padded decimal rendering used by `strftime`. -/
def pad2 (n : Nat) : String :=
  if n < 10 then "0" ++ toString n else toString n

/-- `strftime("%Y-%m-%d")` of a parsed `(day, month)` date; `strptime`'s
default year is 1900. -/
def dateStr (dm : Nat × Nat) : String :=
  "1900-" ++ pad2 dm.2 ++ "-" ++ pad2 dm.1

/-- One record of `line_data.json`: date string and market name with the
group's summed price in currency units (`value`) and its row count. -/
structure LineRec where
  date : String
  market_name : String
  value : ℚ
  count : Nat
  deriving DecidableEq

/-- The rows of group `(d, n)` of `groupby(["Date", "Market Name"])`. -/
def lineGroup (fr : List Row) (d n : String) : List Row :=
  fr.filter (fun r => dateStr r.actedOn == d && r.marketName == n)

/-- Lines 132–141: group by (formatted date, market name); emit summed
price / 100 and the count per group. -/
def line_data (fr : List Row) : List LineRec :=
  (fr.map fun r => (dateStr r.actedOn, r.marketName)).dedup.map fun k =>
    { date := k.1
      market_name := k.2
      value := sumPrices (lineGroup fr k.1 k.2) / 100
      count := (lineGroup fr k.1 k.2).length }

/-- `pie_data` (lines 147–150). -/
def pie_data (fr : List Row) : List (String × Nat) :=
  [("Purchases", (purchases fr).length), ("Sales", (sales fr).length)]

/-! ### The whole run -/

/-- A file written by the script, with its content. -/
inductive OutFile where
  | summaryJson (s : Summary)
  | barJson (b : List BarRec)
  | lineJson (l : List LineRec)
  | pieJson (p : List (String × Nat))
  | indexHtml
  deriving DecidableEq

/-- Lines 31–154 of the script, from the loaded rows onward: filter and
clean, exit with code 1 when no purchase/sale transaction remains (before
anything is written), otherwise write `summary.json`, then compute the bar
data — whose `melt` dies on a `KeyError` when one of the two types is
wholly absent, leaving only `summary.json` on disk — then write
`bar_data.json`, `line_data.json`, `pie_data.json` and `index.html`.
Returns the files written in order, and the fatal error if one occurred. -/
def runPipeline (rs : List RawRow) : List OutFile × Option Fatal :=
  let fr := filterRows rs
  if fr.any (fun r => r.typeVal == "purchase" || r.typeVal == "sale") then
    let s := buildSummary fr
    match bar_data fr with
    | .error e => ([.summaryJson s], some e)
    | .ok b =>
        ([.summaryJson s, .barJson b, .lineJson (line_data fr),
          .pieJson (pie_data fr), .indexHtml], none)
  else ([], some .noValidTransactions)

/-! ### Concrete data used by the witnesses and counterexamples -/

/-- Two cleaned rows with integer cent prices: a purchase of a case and a
sale of a weapon skin. -/
def demoRows : List Row :=
  [{ actedOn := (5, 1), typeVal := "purchase", marketName := "Gamma Case", price := 250 },
   { actedOn := (6, 1), typeVal := "sale", marketName := "AK-47 | Redline", price := 1050 }]

/-- Three cleaned rows with a price tie between the first two. -/
def tieRows : List Row :=
  [{ actedOn := (5, 1), typeVal := "purchase", marketName := "Gamma Case", price := 100 },
   { actedOn := (6, 1), typeVal := "sale", marketName := "AK-47 | Redline", price := 100 },
   { actedOn := (7, 1), typeVal := "sale", marketName := "Sticker | Crown", price := 50 }]

/-- A valid CS2 row whose type normalizes to `"trade"`, which is neither
`purchase` nor `sale`. -/
def tradeRaw : RawRow :=
  { gameName := some "Counter-Strike 2", actedOn := some "05 Jan",
    typeVal := some "Trade", marketName := some "Souvenir Package", priceCell := some 300 }

/-- A CS2 row whose price cell coerces to the negative number `-50`. -/
def negPriceRaw : RawRow :=
  { gameName := some "Counter-Strike 2", actedOn := some "05 Jan",
    typeVal := some "Sold", marketName := some "AK-47 | Redline", priceCell := some (-50) }

/-- The cleaned form of the purchase row of `demoRaws`. -/
def demoPurchaseRow : Row :=
  { actedOn := (5, 1), typeVal := "purchase", marketName := "Gamma Case", price := 250 }

/-- Two raw CS2 rows, one purchase and one sale. -/
def demoRaws : List RawRow :=
  [{ gameName := some "Counter-Strike 2", actedOn := some "05 Jan",
     typeVal := some "Purchase", marketName := some "Gamma Case", priceCell := some 250 },
   { gameName := some "Counter-Strike 2", actedOn := some "06 Jan",
     typeVal := some "Sold", marketName := some "AK-47 | Redline", priceCell := some 1050 }]

/-- A single cleaned sale row (a dataset that passes the
no-valid-transactions check but contains no purchase row). -/
def saleOnlyRows : List Row :=
  [{ actedOn := (5, 1), typeVal := "sale", marketName := "AK-47 | Redline", price := 100 }]

/-- The bar records of the demo dataset: the purchased case and the sold
weapon skin, each with the other type's sum defaulting to 0. -/
def demoBarRecs : List BarRec :=
  [{ category := "Cases", spent := 5 / 2, earned := 0 },
   { category := "Weapons", spent := 0, earned := 21 / 2 }]

/-! ### Statement abbreviations for the rounding claim -/

/-- Every retained price is an integer number of cents (the data model's
notion of a valid input dataset). -/
def IntCentPrices (fr : List Row) : Prop :=
  ∀ r ∈ fr, ∃ n : ℤ, r.price = (n : ℚ)

/-- Every monetary value of the serialized artifacts equals the 2-decimal
rounding of the corresponding exact, unrounded accumulation: the summary
totals and the highest-transaction price are `round(·, 2)` of the raw sums,
and each `item_details`/bar/line monetary field equals the rounded value of
its group's exact sum divided by 100. -/
def RoundedOutputs (fr : List Row) : Prop :=
  (buildSummary fr).total_spent = round2Q (total_spent fr) ∧
  (buildSummary fr).total_earned = round2Q (total_earned fr) ∧
  (buildSummary fr).net_flow = round2Q (net_flow fr) ∧
  (∀ r, argmaxFirst fr = some r →
      (buildSummary fr).highest_transaction.price_eur = round2Q (r.price / 100)) ∧
  (∀ d ∈ item_details fr,
      d.total_eur = round2Q (sumPrices (itemGroup fr d.market_name) / 100)) ∧
  (∀ recs, bar_data fr = .ok recs → ∀ b ∈ recs,
      b.spent = round2Q (catTypeSum fr b.category "purchase" / 100) ∧
      b.earned = round2Q (catTypeSum fr b.category "sale" / 100)) ∧
  (∀ l ∈ line_data fr,
      l.value = round2Q (sumPrices (lineGroup fr l.date l.market_name) / 100))

/-! ## Theorems -/

/-! ### Header cleaning (claim C9) -/

/-- Helper: `dropWhile` is the identity when the head does not satisfy the
predicate. -/
lemma dropWhile_eq_self_of_head (p : Char → Bool) (l : List Char)
    (h : ∀ c, l.head? = some c → p c = false) : l.dropWhile p = l := by
  cases l with
  | nil => rfl
  | cons c cs => simp [List.dropWhile_cons, h c rfl]

/-- Helper: a one-sided Python strip is the identity when neither end of the
list satisfies the predicate. -/
lemma pyStripL_eq_self (p : Char → Bool) (l : List Char)
    (hh : ∀ c, l.head? = some c → p c = false)
    (hl : ∀ c, l.getLast? = some c → p c = false) : pyStripL p l = l := by
  unfold pyStripL
  rw [dropWhile_eq_self_of_head p l hh]
  rw [dropWhile_eq_self_of_head p l.reverse
    (fun c hc => hl c (by rwa [List.head?_reverse] at hc))]
  exact l.reverse_reverse

/-- C9 (corrected), counterexample: header normalization is not idempotent.
On `"\" x \""` (a quoted name with inner spaces) one application yields
`" x "`, whose surrounding whitespace a second application removes. -/
theorem cleanHeader_not_idempotent :
    cleanHeader (cleanHeader "\" x \"") ≠ cleanHeader "\" x \"" := by decide

/-- C9 (amended): header normalization is the identity on already-clean
header names — those whose first and last characters are neither whitespace
nor a quote character. -/
theorem cleanHeader_clean_id (s : String) (h : isCleanHeader s = true) :
    cleanHeader s = s := by
  cases s with
  | mk data =>
    cases data with
    | nil => rfl
    | cons c cs =>
      have hb : (pyWS c || c == '"' || c == '\'') = false ∧
          (pyWS ((c :: cs).getLast (by simp)) ||
            (c :: cs).getLast (by simp) == '"' ||
            (c :: cs).getLast (by simp) == '\'') = false := by
        have h' := h
        unfold isCleanHeader at h'
        simp only [String.toList] at h'
        constructor
        · cases hx : (pyWS c || c == '"' || c == '\'') with
          | false => rfl
          | true => simp [hx] at h'
        · cases hx : (pyWS ((c :: cs).getLast (by simp)) ||
              (c :: cs).getLast (by simp) == '"' ||
              (c :: cs).getLast (by simp) == '\'') with
          | false => rfl
          | true => simp [hx] at h'
      obtain ⟨hb1, hb2⟩ := hb
      have hws1 : pyWS c = false := by
        cases hx : pyWS c with
        | false => rfl
        | true => simp [hx] at hb1
      have hdq1 : (c == '"') = false := by
        cases hx : (c == '"') with
        | false => rfl
        | true => simp [hx] at hb1
      have hsq1 : (c == '\'') = false := by
        cases hx : (c == '\'') with
        | false => rfl
        | true => simp [hx] at hb1
      have hws2 : pyWS ((c :: cs).getLast (by simp)) = false := by
        cases hx : pyWS ((c :: cs).getLast (by simp)) with
        | false => rfl
        | true => simp [hx] at hb2
      have hdq2 : ((c :: cs).getLast (by simp) == '"') = false := by
        cases hx : ((c :: cs).getLast (by simp) == '"') with
        | false => rfl
        | true => simp [hx] at hb2
      have hsq2 : ((c :: cs).getLast (by simp) == '\'') = false := by
        cases hx : ((c :: cs).getLast (by simp) == '\'') with
        | false => rfl
        | true => simp [hx] at hb2
      have hhead : ∀ (p : Char → Bool), p c = false →
          ∀ c', (c :: cs).head? = some c' → p c' = false := by
        intro p hp c' hc'
        simp only [List.head?_cons, Option.some.injEq] at hc'
        rwa [← hc']
      have hlast : ∀ (p : Char → Bool), p ((c :: cs).getLast (by simp)) = false →
          ∀ c', (c :: cs).getLast? = some c' → p c' = false := by
        intro p hp c' hc'
        rw [List.getLast?_eq_getLast _ (by simp)] at hc'
        simp only [Option.some.injEq] at hc'
        rwa [← hc']
      show String.mk (pyStripL (fun x => x == '\'')
        (String.toList (String.mk (pyStripL (fun x => x == '"')
          (String.toList (String.mk (pyStripL pyWS (c :: cs)))))))) = String.mk (c :: cs)
      rw [pyStripL_eq_self pyWS _ (hhead pyWS hws1) (hlast pyWS hws2)]
      show String.mk (pyStripL (fun x => x == '\'')
        (pyStripL (fun x => x == '"') (c :: cs))) = String.mk (c :: cs)
      rw [pyStripL_eq_self _ _ (hhead _ hdq1) (hlast _ hdq2)]
      rw [pyStripL_eq_self _ _ (hhead _ hsq1) (hlast _ hsq2)]

/-- C9 witness: the clean header `"Game Name"` is left unchanged. -/
theorem cleanHeader_clean_id_witness :
    isCleanHeader "Game Name" = true ∧ cleanHeader "Game Name" = "Game Name" :=
  ⟨by decide, cleanHeader_clean_id "Game Name" (by decide)⟩

/-! ### Type normalization (claim C2) -/

/-- Helper: the value of `normalize_type` on a present cell, written as
nested conditionals on the stripped lower-cased value. -/
lemma normalize_type_eq (v : String) :
    normalize_type (some v) =
      (if lowerAscii (pyStrip pyWS v) = "purchase" ∨ lowerAscii (pyStrip pyWS v) = "buy" ∨
          lowerAscii (pyStrip pyWS v) = "bought" then some "purchase"
       else if lowerAscii (pyStrip pyWS v) = "sale" ∨ lowerAscii (pyStrip pyWS v) = "sell" ∨
          lowerAscii (pyStrip pyWS v) = "sold" then some "sale"
       else some (lowerAscii (pyStrip pyWS v))) := rfl

/-- C2 (corrected), counterexample: the unrecognized type value `"Trade"`
does not pass through unchanged — the normalizer returns its lower-cased
form `"trade"`. -/
theorem normalize_type_passthrough_counterexample :
    normalize_type (some "Trade") = some "trade" ∧ ("trade" : String) ≠ "Trade" := by
  decide

/-- C2 (amended): a missing value becomes null; a value whose stripped
lower-cased form is a purchase synonym maps to exactly `"purchase"`, a sale
synonym to exactly `"sale"`; any other value passes through stripped of
surrounding whitespace and lower-cased (in particular an empty string stays
an empty string; it does not become null). -/
theorem normalize_type_spec (v : String) :
    normalize_type none = none ∧
    ((lowerAscii (pyStrip pyWS v) = "purchase" ∨ lowerAscii (pyStrip pyWS v) = "buy" ∨
        lowerAscii (pyStrip pyWS v) = "bought") →
      normalize_type (some v) = some "purchase") ∧
    ((lowerAscii (pyStrip pyWS v) = "sale" ∨ lowerAscii (pyStrip pyWS v) = "sell" ∨
        lowerAscii (pyStrip pyWS v) = "sold") →
      normalize_type (some v) = some "sale") ∧
    (¬(lowerAscii (pyStrip pyWS v) = "purchase" ∨ lowerAscii (pyStrip pyWS v) = "buy" ∨
        lowerAscii (pyStrip pyWS v) = "bought") →
     ¬(lowerAscii (pyStrip pyWS v) = "sale" ∨ lowerAscii (pyStrip pyWS v) = "sell" ∨
        lowerAscii (pyStrip pyWS v) = "sold") →
      normalize_type (some v) = some (lowerAscii (pyStrip pyWS v))) := by
  refine ⟨rfl, ?_, ?_, ?_⟩
  · intro h
    rw [normalize_type_eq, if_pos h]
  · intro h
    have hne : ¬(lowerAscii (pyStrip pyWS v) = "purchase" ∨
        lowerAscii (pyStrip pyWS v) = "buy" ∨ lowerAscii (pyStrip pyWS v) = "bought") := by
      rcases h with h | h | h <;> rw [h] <;> decide
    rw [normalize_type_eq, if_neg hne, if_pos h]
  · intro h1 h2
    rw [normalize_type_eq, if_neg h1, if_neg h2]

/-- C2 witness: `"BUY"` normalizes to exactly `"purchase"`. -/
theorem normalize_type_spec_witness :
    (lowerAscii (pyStrip pyWS "BUY") = "purchase" ∨ lowerAscii (pyStrip pyWS "BUY") = "buy" ∨
      lowerAscii (pyStrip pyWS "BUY") = "bought") ∧
    normalize_type (some "BUY") = some "purchase" :=
  ⟨by decide, (normalize_type_spec "BUY").2.1 (by decide)⟩

/-! ### Category classification (claim C3) -/

/-- Helper: the value of `categorize_item` on a present name, written as
nested conditionals on the four substring tests. -/
lemma categorize_item_eq (s : String) :
    categorize_item (some s) =
      (if strHasSubstr "Capsule" s then "Capsules"
       else if strHasSubstr "Case" s then "Cases"
       else if strHasSubstr "Charm" s then "Charms"
       else if strHasSubstr "Sticker" s then "Stickers"
       else "Weapons") := rfl

/-- C3: the classifier is total into the five categories, tests the
substrings in the order `Capsule`, `Case`, `Charm`, `Sticker` with the
first match winning (so `Capsule` takes precedence over `Case`), and
defaults to `Weapons` when no substring matches. -/
theorem categorize_item_spec (s : String) :
    (categorize_item (some s) = "Capsules" ∨ categorize_item (some s) = "Cases" ∨
     categorize_item (some s) = "Charms" ∨ categorize_item (some s) = "Stickers" ∨
     categorize_item (some s) = "Weapons") ∧
    (strHasSubstr "Capsule" s = true → categorize_item (some s) = "Capsules") ∧
    (strHasSubstr "Capsule" s = false → strHasSubstr "Case" s = true →
      categorize_item (some s) = "Cases") ∧
    (strHasSubstr "Capsule" s = false → strHasSubstr "Case" s = false →
      strHasSubstr "Charm" s = true → categorize_item (some s) = "Charms") ∧
    (strHasSubstr "Capsule" s = false → strHasSubstr "Case" s = false →
      strHasSubstr "Charm" s = false → strHasSubstr "Sticker" s = true →
      categorize_item (some s) = "Stickers") ∧
    (strHasSubstr "Capsule" s = false → strHasSubstr "Case" s = false →
      strHasSubstr "Charm" s = false → strHasSubstr "Sticker" s = false →
      categorize_item (some s) = "Weapons") := by
  refine ⟨?_, ?_, ?_, ?_, ?_, ?_⟩
  · rw [categorize_item_eq]
    split_ifs <;> tauto
  · intro h1
    rw [categorize_item_eq, if_pos h1]
  · intro h1 h2
    rw [categorize_item_eq, if_neg (by simp [h1]), if_pos h2]
  · intro h1 h2 h3
    rw [categorize_item_eq, if_neg (by simp [h1]), if_neg (by simp [h2]), if_pos h3]
  · intro h1 h2 h3 h4
    rw [categorize_item_eq, if_neg (by simp [h1]), if_neg (by simp [h2]),
      if_neg (by simp [h3]), if_pos h4]
  · intro h1 h2 h3 h4
    rw [categorize_item_eq, if_neg (by simp [h1]), if_neg (by simp [h2]),
      if_neg (by simp [h3]), if_neg (by simp [h4])]

/-- C3 witness: a name containing both `Capsule` and `Case` is classified
as `Capsules`, and a plain skin name falls through to `Weapons`. -/
theorem categorize_item_spec_witness :
    (strHasSubstr "Capsule" "Breakout Capsule Case" = true ∧
      categorize_item (some "Breakout Capsule Case") = "Capsules") ∧
    (strHasSubstr "Capsule" "AK-47 | Redline" = false ∧
      strHasSubstr "Case" "AK-47 | Redline" = false ∧
      strHasSubstr "Charm" "AK-47 | Redline" = false ∧
      strHasSubstr "Sticker" "AK-47 | Redline" = false ∧
      categorize_item (some "AK-47 | Redline") = "Weapons") :=
  ⟨⟨by decide, (categorize_item_spec "Breakout Capsule Case").2.1 (by decide)⟩,
   ⟨by decide, by decide, by decide, by decide,
    (categorize_item_spec "AK-47 | Redline").2.2.2.2.2 (by decide) (by decide)
      (by decide) (by decide)⟩⟩

/-! ### Fatal exit on empty valid dataset (claim C4) -/

/-- C4: when, after filtering and row-level coercion, no retained row has
normalized type `purchase` or `sale`, the run stops with the
`NoValidTransactions` fatal error (exit code 1) before any aggregation is
serialized: no output file is written. -/
theorem no_valid_transactions_aborts (rs : List RawRow)
    (h : ∀ r ∈ filterRows rs, r.typeVal ≠ "purchase" ∧ r.typeVal ≠ "sale") :
    runPipeline rs = ([], some .noValidTransactions) := by
  cases hany : (filterRows rs).any
      (fun r => r.typeVal == "purchase" || r.typeVal == "sale") with
  | false => simp [runPipeline, hany]
  | true =>
      exfalso
      rw [List.any_eq_true] at hany
      obtain ⟨r, hr, hf⟩ := hany
      obtain ⟨h1, h2⟩ := h r hr
      simp [h1, h2] at hf

/-- C4 witness: a dataset whose single retained row has type `"trade"`
passes filtering but aborts with `NoValidTransactions` and writes nothing. -/
theorem no_valid_transactions_aborts_witness :
    (∀ r ∈ filterRows [tradeRaw], r.typeVal ≠ "purchase" ∧ r.typeVal ≠ "sale") ∧
    runPipeline [tradeRaw] = ([], some .noValidTransactions) :=
  ⟨by decide, no_valid_transactions_aborts [tradeRaw] (by decide)⟩

/-! ### Price coercion (claim C6) -/

/-- Helper: a retained row's price is exactly the coerced price cell of its
raw row. -/
lemma cleanRow_price (raw : RawRow) (r : Row) (h : cleanRow raw = some r) :
    raw.priceCell = some r.price := by
  unfold cleanRow at h
  split at h
  · split at h
    · split at h
      · injection h with h'
        subst h'
        assumption
      · exact Option.noConfusion h
    · exact Option.noConfusion h
  · exact Option.noConfusion h

/-- C6 (corrected), counterexample: a row whose price cell coerces to the
negative number `-50` is retained with that negative price — the code never
enforces non-negativity. -/
theorem negative_price_retained :
    filterRows [negPriceRaw] =
      [{ actedOn := (5, 1), typeVal := "sale", marketName := "AK-47 | Redline",
         price := -50 }] ∧
    ((-50 : ℚ) < 0) := by decide

/-- C6 (amended): every retained row's price is a number, namely exactly
the value the raw cell coerced to (never a default), and a row whose price
cell fails numeric coercion is excluded from the dataset. -/
theorem price_coercion_excludes_not_defaults (rs : List RawRow) (r : Row)
    (hr : r ∈ filterRows rs) :
    (∃ raw ∈ rs, cleanRow raw = some r ∧ raw.priceCell = some r.price) ∧
    (∀ raw : RawRow, raw.priceCell = none → cleanRow raw = none) := by
  constructor
  · obtain ⟨raw, hraw, hclean⟩ := List.mem_filterMap.mp hr
    exact ⟨raw, hraw, hclean, cleanRow_price raw r hclean⟩
  · intro raw hnone
    unfold cleanRow
    rw [hnone]
    cases hnt : normalize_type raw.typeVal <;> split <;> rfl

/-- C6 witness: the purchase row of the demo dataset is retained with
price exactly the coerced cell value `250`. -/
theorem price_coercion_excludes_not_defaults_witness :
    demoPurchaseRow ∈ filterRows demoRaws ∧
    ((∃ raw ∈ demoRaws, cleanRow raw = some demoPurchaseRow ∧
        raw.priceCell = some demoPurchaseRow.price) ∧
     (∀ raw : RawRow, raw.priceCell = none → cleanRow raw = none)) :=
  ⟨by decide, price_coercion_excludes_not_defaults demoRaws demoPurchaseRow (by decide)⟩

/-! ### Highest transaction (claim C8) -/

/-- Helper: on a non-empty list `idxmax` always yields a row. -/
lemma argmaxFirst_cons_isSome (a : Row) (fs : List Row) :
    ∃ m, argmaxFirst (a :: fs) = some m := by
  cases hm : argmaxFirst fs with
  | none => exact ⟨a, by rw [argmaxFirst, hm]⟩
  | some m =>
      by_cases hx : a.price < m.price
      · exact ⟨m, by rw [argmaxFirst, hm]; exact if_pos hx⟩
      · exact ⟨a, by rw [argmaxFirst, hm]; exact if_neg hx⟩

/-- Helper: the row selected by `idxmax` is the first row of maximal price:
everything strictly before it is strictly cheaper and nothing beats it. -/
lemma argmaxFirst_spec (fr : List Row) (r : Row) (h : argmaxFirst fr = some r) :
    ∃ l1 l2, fr = l1 ++ r :: l2 ∧ (∀ x ∈ l1, x.price < r.price) ∧
      ∀ x ∈ fr, x.price ≤ r.price := by
  induction fr generalizing r with
  | nil => exact Option.noConfusion h
  | cons a fs ih =>
      cases hm : argmaxFirst fs with
      | none =>
          have h2 : some a = some r := by rw [← h, argmaxFirst, hm]
          injection h2 with h'
          subst h'
          have hfs : fs = [] := by
            cases fs with
            | nil => rfl
            | cons b bs =>
                exfalso
                obtain ⟨m, hmm⟩ := argmaxFirst_cons_isSome b bs
                rw [hm] at hmm
                exact Option.noConfusion hmm
          subst hfs
          exact ⟨[], [], rfl, by simp, by simp⟩
      | some m =>
          have h2 : (if a.price < m.price then some m else some a) = some r := by
            rw [← h, argmaxFirst, hm]
          by_cases hlt : a.price < m.price
          · rw [if_pos hlt] at h2
            injection h2 with h'
            subst h'
            obtain ⟨l1, l2, hsplit, hl1, hall⟩ := ih m hm
            refine ⟨a :: l1, l2, by rw [List.cons_append, hsplit], ?_, ?_⟩
            · intro x hx
              rcases List.mem_cons.mp hx with rfl | hx
              · exact hlt
              · exact hl1 x hx
            · intro x hx
              rcases List.mem_cons.mp hx with rfl | hx
              · exact le_of_lt hlt
              · exact hall x hx
          · rw [if_neg hlt] at h2
            injection h2 with h'
            subst h'
            obtain ⟨l1, l2, hsplit, hl1, hall⟩ := ih m hm
            refine ⟨[], fs, rfl, by simp, ?_⟩
            intro x hx
            rcases List.mem_cons.mp hx with rfl | hx
            · exact le_refl _
            · exact le_trans (hall x hx) (not_lt.mp hlt)

/-- Helper: rounding half to even fixes every integer. -/
lemma roundHalfEven_intCast (n : ℤ) : roundHalfEven (n : ℚ) = n := by
  unfold roundHalfEven
  rw [Int.floor_intCast, sub_self, if_pos (by norm_num)]

/-- Helper: `round(0, 2) = 0`. -/
lemma round2Q_zero : round2Q 0 = 0 := by
  unfold round2Q
  rw [mul_zero]
  have h0 : roundHalfEven (0 : ℚ) = 0 := by
    simpa using roundHalfEven_intCast 0
  rw [h0]
  norm_num

/-- C8: on a non-empty filtered dataset the reported highest transaction is
the row of maximal price over all rows of any type, ties broken by first
occurrence in input order; on an empty dataset the default record
`("None", 0, "")` is emitted. -/
theorem highest_transaction_spec (fr : List Row) :
    (fr = [] → highest_transaction fr =
      { market_name := "None", price_eur := 0, type_val := "" }) ∧
    (fr ≠ [] → ∃ r l1 l2, argmaxFirst fr = some r ∧ fr = l1 ++ r :: l2 ∧
      (∀ x ∈ l1, x.price < r.price) ∧ (∀ x ∈ fr, x.price ≤ r.price) ∧
      highest_transaction fr =
        { market_name := r.marketName, price_eur := round2Q (r.price / 100),
          type_val := r.typeVal }) := by
  constructor
  · intro h
    subst h
    show (⟨"None", round2Q (0 / 100), ""⟩ : HighestRec) = _
    rw [zero_div, round2Q_zero]
  · intro h
    cases hm : argmaxFirst fr with
    | none =>
        exfalso
        cases fr with
        | nil => exact h rfl
        | cons a fs =>
            obtain ⟨m, hmm⟩ := argmaxFirst_cons_isSome a fs
            rw [hm] at hmm
            exact Option.noConfusion hmm
    | some r =>
        obtain ⟨l1, l2, hsplit, hl1, hall⟩ := argmaxFirst_spec fr r hm
        refine ⟨r, l1, l2, rfl, hsplit, hl1, hall, ?_⟩
        unfold highest_transaction
        rw [hm]

/-- C8 witness: in a dataset where the first two rows tie at the maximal
price, the first one is reported. -/
theorem highest_transaction_spec_witness :
    tieRows ≠ [] ∧
    (∃ r l1 l2, argmaxFirst tieRows = some r ∧ tieRows = l1 ++ r :: l2 ∧
      (∀ x ∈ l1, x.price < r.price) ∧ (∀ x ∈ tieRows, x.price ≤ r.price) ∧
      highest_transaction tieRows =
        { market_name := r.marketName, price_eur := round2Q (r.price / 100),
          type_val := r.typeVal }) :=
  ⟨by decide, (highest_transaction_spec tieRows).2 (by decide)⟩

/-! ### Bar data (claims C7 and C10) -/

/-- Helper: the value of `bar_data`, written as a conditional. -/
lemma bar_data_eq (fr : List Row) :
    bar_data fr =
      (if "purchase" ∈ (fr.map Row.typeVal).dedup ∧ "sale" ∈ (fr.map Row.typeVal).dedup then
        .ok ((fr.map rowCategory).dedup.map fun c =>
          { category := c, spent := catTypeSum fr c "purchase" / 100,
            earned := catTypeSum fr c "sale" / 100 })
      else .error .meltKeyError) := rfl

/-- C7 (corrected), counterexample: a dataset with one sale row and no
purchase row passes the no-valid-transactions check, yet the bar-data stage
dies with the `melt` `KeyError` (the `purchase` column is absent from the
unstacked table) instead of emitting records with `spent = 0`. -/
theorem bar_data_missing_type_counterexample :
    saleOnlyRows.any (fun r => r.typeVal == "purchase" || r.typeVal == "sale") = true ∧
    bar_data saleOnlyRows = .error .meltKeyError :=
  ⟨by decide, by rfl⟩

/-- C7 (amended): when both types `purchase` and `sale` occur somewhere in
the filtered dataset, the bar data has exactly one record per occurring
category, whose `spent`/`earned` fields are the category's summed purchase
and sale prices in currency units, any `(category, type)` cell with no rows
contributing 0; when one of the two types is wholly absent, the stage
instead raises an uncaught `KeyError`. -/
theorem bar_data_spec (fr : List Row)
    (hp : ∃ r ∈ fr, r.typeVal = "purchase") (hs : ∃ r ∈ fr, r.typeVal = "sale") :
    ∃ recs, bar_data fr = .ok recs ∧
      (recs.map BarRec.category).Nodup ∧
      (∀ c, c ∈ recs.map BarRec.category ↔ ∃ r ∈ fr, rowCategory r = c) ∧
      ∀ b ∈ recs, b.spent = catTypeSum fr b.category "purchase" / 100 ∧
        b.earned = catTypeSum fr b.category "sale" / 100 := by
  have hcond : "purchase" ∈ (fr.map Row.typeVal).dedup ∧
      "sale" ∈ (fr.map Row.typeVal).dedup := by
    constructor
    · rw [List.mem_dedup, List.mem_map]
      obtain ⟨r, hr, ht⟩ := hp
      exact ⟨r, hr, ht⟩
    · rw [List.mem_dedup, List.mem_map]
      obtain ⟨r, hr, ht⟩ := hs
      exact ⟨r, hr, ht⟩
  have hmap : (((fr.map rowCategory).dedup.map fun c =>
      ({ category := c, spent := catTypeSum fr c "purchase" / 100,
         earned := catTypeSum fr c "sale" / 100 } : BarRec)).map BarRec.category) =
      (fr.map rowCategory).dedup := by
    rw [List.map_map]
    exact List.map_id _
  refine ⟨_, by rw [bar_data_eq, if_pos hcond], ?_, ?_, ?_⟩
  · rw [hmap]
    exact List.nodup_dedup _
  · intro c
    rw [hmap, List.mem_dedup, List.mem_map]
  · intro b hb
    rw [List.mem_map] at hb
    obtain ⟨c, hc, hbc⟩ := hb
    subst hbc
    exact ⟨rfl, rfl⟩

/-- C7 witness: on the demo dataset (one purchase, one sale) the bar data
is produced with one record per occurring category. -/
theorem bar_data_spec_witness :
    (∃ r ∈ demoRows, r.typeVal = "purchase") ∧ (∃ r ∈ demoRows, r.typeVal = "sale") ∧
    (∃ recs, bar_data demoRows = .ok recs ∧
      (recs.map BarRec.category).Nodup ∧
      (∀ c, c ∈ recs.map BarRec.category ↔ ∃ r ∈ demoRows, rowCategory r = c) ∧
      ∀ b ∈ recs, b.spent = catTypeSum demoRows b.category "purchase" / 100 ∧
        b.earned = catTypeSum demoRows b.category "sale" / 100) :=
  ⟨by decide, by decide, bar_data_spec demoRows (by decide) (by decide)⟩

/-- Helper: on a present market name the classifier yields one of the five
named categories. -/
lemma categorize_item_some_mem (s : String) :
    categorize_item (some s) = "Capsules" ∨ categorize_item (some s) = "Cases" ∨
    categorize_item (some s) = "Charms" ∨ categorize_item (some s) = "Stickers" ∨
    categorize_item (some s) = "Weapons" := by
  rw [categorize_item_eq]
  split_ifs <;> tauto

/-- C10: every `Category` value of a produced bar-data output is one of the
five named categories, never `"Unknown"`: the `Unknown` branch of the
classifier is unreachable because rows with a missing market name were
dropped before categorization. -/
theorem bar_categories_known (rs : List RawRow) (recs : List BarRec)
    (h : bar_data (filterRows rs) = .ok recs) :
    ∀ b ∈ recs,
      (b.category = "Capsules" ∨ b.category = "Cases" ∨ b.category = "Charms" ∨
        b.category = "Stickers" ∨ b.category = "Weapons") ∧
      b.category ≠ "Unknown" := by
  intro b hb
  rw [bar_data_eq] at h
  split at h
  · injection h with h'
    subst h'
    rw [List.mem_map] at hb
    obtain ⟨c, hc, hbc⟩ := hb
    have hb2 : b.category = c := by rw [← hbc]
    rw [List.mem_dedup, List.mem_map] at hc
    obtain ⟨r, hr, hcr⟩ := hc
    rw [hb2, ← hcr]
    unfold rowCategory
    refine ⟨categorize_item_some_mem _, ?_⟩
    rcases categorize_item_some_mem r.marketName with h5 | h5 | h5 | h5 | h5 <;>
      rw [h5] <;> decide
  · exact Except.noConfusion h

/-- Helper: the bar data of the demo run, evaluated. -/
lemma bar_data_demo : bar_data (filterRows demoRaws) = .ok demoBarRecs := by
  have hfil : filterRows demoRaws = demoRows := rfl
  have e1 : catTypeSum demoRows "Cases" "purchase" = 250 := by
    unfold catTypeSum
    rw [show demoRows.filter (fun r => rowCategory r == "Cases" && r.typeVal == "purchase") =
        [{ actedOn := (5, 1), typeVal := "purchase", marketName := "Gamma Case", price := 250 }]
      from by decide]
    simp [sumPrices]
  have e2 : catTypeSum demoRows "Cases" "sale" = 0 := by
    unfold catTypeSum
    rw [show demoRows.filter (fun r => rowCategory r == "Cases" && r.typeVal == "sale") =
        ([] : List Row) from by decide]
    simp [sumPrices]
  have e3 : catTypeSum demoRows "Weapons" "purchase" = 0 := by
    unfold catTypeSum
    rw [show demoRows.filter (fun r => rowCategory r == "Weapons" && r.typeVal == "purchase") =
        ([] : List Row) from by decide]
    simp [sumPrices]
  have e4 : catTypeSum demoRows "Weapons" "sale" = 1050 := by
    unfold catTypeSum
    rw [show demoRows.filter (fun r => rowCategory r == "Weapons" && r.typeVal == "sale") =
        [{ actedOn := (6, 1), typeVal := "sale", marketName := "AK-47 | Redline", price := 1050 }]
      from by decide]
    simp [sumPrices]
  rw [hfil, bar_data_eq, if_pos (by decide),
    show (demoRows.map rowCategory).dedup = ["Cases", "Weapons"] from by decide]
  simp only [List.map_cons, List.map_nil]
  rw [e1, e2, e3, e4]
  simp only [demoBarRecs]
  norm_num

/-- C10 witness: the demo run produces bar records whose categories are
`Cases` and `Weapons` only. -/
theorem bar_categories_known_witness :
    bar_data (filterRows demoRaws) = .ok demoBarRecs ∧
    (∀ b ∈ demoBarRecs,
      (b.category = "Capsules" ∨ b.category = "Cases" ∨ b.category = "Charms" ∨
        b.category = "Stickers" ∨ b.category = "Weapons") ∧
      b.category ≠ "Unknown") :=
  ⟨bar_data_demo, bar_categories_known demoRaws demoBarRecs bar_data_demo⟩

/-! ### Rounding arithmetic (claims C5 and C1) -/

/-- Helper: rounding half to even moves a rational by at most one half. -/
lemma abs_roundHalfEven_sub_le (q : ℚ) : |(roundHalfEven q : ℚ) - q| ≤ 1 / 2 := by
  unfold roundHalfEven
  have h0 : ((⌊q⌋ : ℤ) : ℚ) ≤ q := Int.floor_le q
  have h1 : q < ⌊q⌋ + 1 := Int.lt_floor_add_one q
  split_ifs with ha hb hc
  · rw [abs_sub_comm, abs_of_nonneg (by linarith)]
    linarith
  · push_cast
    rw [abs_of_nonneg (by linarith)]
    linarith
  · have he : q - ⌊q⌋ = 1 / 2 := le_antisymm (not_lt.mp hb) (not_lt.mp ha)
    rw [abs_sub_comm, abs_of_nonneg (by linarith)]
    linarith
  · have he : q - ⌊q⌋ = 1 / 2 := le_antisymm (not_lt.mp hb) (not_lt.mp ha)
    push_cast
    rw [abs_of_nonneg (by linarith)]
    linarith

/-- Helper: the three roundings of `a`, `b - a` and `b` are consistent to
within one unit — the discrepancy is an integer bounded by 3/2, hence by 1. -/
lemma rhe_sum_bound (a b : ℚ) :
    |(roundHalfEven a : ℚ) + (roundHalfEven (b - a) : ℚ) - (roundHalfEven b : ℚ)| ≤ 1 := by
  have h1 := abs_roundHalfEven_sub_le a
  have h2 := abs_roundHalfEven_sub_le (b - a)
  have h3 := abs_roundHalfEven_sub_le b
  have hcast : ((roundHalfEven a + roundHalfEven (b - a) - roundHalfEven b : ℤ) : ℚ) =
      (roundHalfEven a : ℚ) + (roundHalfEven (b - a) : ℚ) - (roundHalfEven b : ℚ) := by
    push_cast
    ring
  have hq : |((roundHalfEven a + roundHalfEven (b - a) - roundHalfEven b : ℤ) : ℚ)| ≤ 3 / 2 := by
    rw [hcast]
    have hsplit : (roundHalfEven a : ℚ) + (roundHalfEven (b - a) : ℚ) - (roundHalfEven b : ℚ) =
        ((roundHalfEven a : ℚ) - a) + ((roundHalfEven (b - a) : ℚ) - (b - a)) -
          ((roundHalfEven b : ℚ) - b) := by ring
    rw [hsplit]
    calc |((roundHalfEven a : ℚ) - a) + ((roundHalfEven (b - a) : ℚ) - (b - a)) -
          ((roundHalfEven b : ℚ) - b)|
        ≤ |((roundHalfEven a : ℚ) - a) + ((roundHalfEven (b - a) : ℚ) - (b - a))| +
          |(roundHalfEven b : ℚ) - b| := abs_sub _ _
      _ ≤ |(roundHalfEven a : ℚ) - a| + |(roundHalfEven (b - a) : ℚ) - (b - a)| +
          |(roundHalfEven b : ℚ) - b| := by
            have := abs_add ((roundHalfEven a : ℚ) - a) ((roundHalfEven (b - a) : ℚ) - (b - a))
            linarith
      _ ≤ 3 / 2 := by linarith
  have hint : |roundHalfEven a + roundHalfEven (b - a) - roundHalfEven b| ≤ 1 := by
    by_contra hcon
    push_neg at hcon
    have h2le : (2 : ℤ) ≤ |roundHalfEven a + roundHalfEven (b - a) - roundHalfEven b| := by
      omega
    have : (2 : ℚ) ≤ |((roundHalfEven a + roundHalfEven (b - a) - roundHalfEven b : ℤ) : ℚ)| := by
      rw [← Int.cast_abs]
      exact_mod_cast h2le
    linarith
  rw [← hcast, ← Int.cast_abs]
  exact_mod_cast hint

/-- C5: the serialized summary satisfies
`total_spent + net_flow = total_earned` up to 0.01, where the underlying
quantities are the purchase-price sum over 100, the sale-price sum over
100, and their difference. -/
theorem totals_consistency (fr : List Row) :
    |(buildSummary fr).total_spent + (buildSummary fr).net_flow -
      (buildSummary fr).total_earned| ≤ 1 / 100 := by
  show |round2Q (total_spent fr) + round2Q (net_flow fr) - round2Q (total_earned fr)| ≤ 1 / 100
  unfold round2Q
  have hn : 100 * net_flow fr = 100 * total_earned fr - 100 * total_spent fr := by
    unfold net_flow
    ring
  rw [hn]
  have hb := rhe_sum_bound (100 * total_spent fr) (100 * total_earned fr)
  have heq : (roundHalfEven (100 * total_spent fr) : ℚ) / 100 +
      (roundHalfEven (100 * total_earned fr - 100 * total_spent fr) : ℚ) / 100 -
      (roundHalfEven (100 * total_earned fr) : ℚ) / 100 =
      ((roundHalfEven (100 * total_spent fr) : ℚ) +
        (roundHalfEven (100 * total_earned fr - 100 * total_spent fr) : ℚ) -
        (roundHalfEven (100 * total_earned fr) : ℚ)) / 100 := by ring
  rw [heq, abs_div]
  have habs100 : |(100 : ℚ)| = 100 := by norm_num
  rw [habs100]
  linarith

/-- Helper: `round(n/100, 2)` is `n/100` itself for an integer `n` of
cents. -/
lemma round2Q_cents (n : ℤ) : round2Q ((n : ℚ) / 100) = (n : ℚ) / 100 := by
  unfold round2Q
  rw [show (100 : ℚ) * ((n : ℚ) / 100) = (n : ℚ) by ring, roundHalfEven_intCast]

/-- Helper: unfolding one row of a price sum. -/
lemma sumPrices_cons (a : Row) (as : List Row) :
    sumPrices (a :: as) = a.price + sumPrices as := by
  simp [sumPrices]

/-- Helper: a sum of integer prices is an integer. -/
lemma sumPrices_int (l : List Row) (h : ∀ r ∈ l, ∃ n : ℤ, r.price = (n : ℚ)) :
    ∃ n : ℤ, sumPrices l = (n : ℚ) := by
  induction l with
  | nil => exact ⟨0, by simp [sumPrices]⟩
  | cons a as ih =>
      obtain ⟨n, hn⟩ := h a (List.mem_cons_self a as)
      obtain ⟨m, hm⟩ := ih (fun r hr => h r (List.mem_cons_of_mem a hr))
      refine ⟨n + m, ?_⟩
      rw [sumPrices_cons, hn, hm]
      push_cast
      ring

/-- C1: on a valid dataset (integer cent prices, the data model's
invariant), every monetary value serialized to the JSON outputs equals the
2-decimal rounding of its exact, unrounded accumulation: the summary totals
and the highest price have `round(·, 2)` applied exactly at serialization,
and the per-item, per-category and per-date sums are emitted at 2-decimal
precision while the cents sums themselves are accumulated unrounded. -/
theorem rounding_at_serialization (fr : List Row) (h : IntCentPrices fr) :
    RoundedOutputs fr := by
  unfold RoundedOutputs
  refine ⟨rfl, rfl, rfl, ?_, ?_, ?_, ?_⟩
  · intro r hr
    show (highest_transaction fr).price_eur = _
    unfold highest_transaction
    rw [hr]
  · intro d hd
    unfold item_details at hd
    rw [List.mem_map] at hd
    obtain ⟨n, hn, hdn⟩ := hd
    have hname : d.market_name = n := by rw [← hdn]
    have hval : d.total_eur = sumPrices (itemGroup fr n) / 100 := by rw [← hdn]
    obtain ⟨m, hm⟩ := sumPrices_int (itemGroup fr n)
      (fun r hr => h r (List.mem_filter.mp hr).1)
    rw [hval, hname, hm, round2Q_cents]
  · intro recs hrecs b hb
    rw [bar_data_eq] at hrecs
    split at hrecs
    · injection hrecs with h'
      subst h'
      rw [List.mem_map] at hb
      obtain ⟨c, hc, hbc⟩ := hb
      have h1 : b.category = c := by rw [← hbc]
      have h2 : b.spent = catTypeSum fr c "purchase" / 100 := by rw [← hbc]
      have h3 : b.earned = catTypeSum fr c "sale" / 100 := by rw [← hbc]
      constructor
      · obtain ⟨m, hm⟩ := sumPrices_int
          (fr.filter (fun r => rowCategory r == c && r.typeVal == "purchase"))
          (fun r hr => h r (List.mem_filter.mp hr).1)
        rw [h2, h1]
        unfold catTypeSum
        rw [hm, round2Q_cents]
      · obtain ⟨m, hm⟩ := sumPrices_int
          (fr.filter (fun r => rowCategory r == c && r.typeVal == "sale"))
          (fun r hr => h r (List.mem_filter.mp hr).1)
        rw [h3, h1]
        unfold catTypeSum
        rw [hm, round2Q_cents]
    · exact Except.noConfusion hrecs
  · intro l hl
    unfold line_data at hl
    rw [List.mem_map] at hl
    obtain ⟨k, hk, hkl⟩ := hl
    have h1 : l.date = k.1 := by rw [← hkl]
    have h2 : l.market_name = k.2 := by rw [← hkl]
    have h3 : l.value = sumPrices (lineGroup fr k.1 k.2) / 100 := by rw [← hkl]
    obtain ⟨m, hm⟩ := sumPrices_int (lineGroup fr k.1 k.2)
      (fun r hr => h r (List.mem_filter.mp hr).1)
    rw [h3, h1, h2, hm, round2Q_cents]

/-- C1 witness: the demo dataset has integer cent prices and its serialized
outputs are all rounded at serialization. -/
theorem rounding_at_serialization_witness :
    IntCentPrices demoRows ∧ RoundedOutputs demoRows := by
  have h : IntCentPrices demoRows := by
    intro r hr
    simp only [demoRows, List.mem_cons, List.not_mem_nil, or_false] at hr
    rcases hr with rfl | rfl
    · exact ⟨250, by norm_num⟩
    · exact ⟨1050, by norm_num⟩
  exact ⟨h, rounding_at_serialization demoRows h⟩

end CS2Market
